import Mathlib

/-!
Shallow embedding of the `diary` add command: identity resolution
(`src/utils/source_repository.rs`), the diary index
(`src/utils/diary_repository.rs`) and the merge planner / plan executor
(`src/cmds/add.rs`).  File paths are modelled as `List Char` (the planner
treats them as opaque, totally ordered tokens); file names, stems and
extensions as `String`.  Filesystem timestamps are modelled as the
date-times they convert to, external collaborators (exiftool, ffmpeg) as
their typed results.
-/

/-- Two-digit zero padding, mirroring Rust's `{:02}` format specifier. -/
def pad2 (n : Nat) : String :=
  if n < 10 then "0" ++ toString n else toString n

/-- Four-digit zero padding, mirroring Rust's `{:04}` format specifier. -/
def pad4 (n : Nat) : String :=
  if n < 10 then "000" ++ toString n
  else if n < 100 then "00" ++ toString n
  else if n < 1000 then "0" ++ toString n
  else toString n

/-- ASCII lowercasing of a string, mirroring `str::to_lowercase` on the
ASCII identifiers the program handles. -/
def lowerAscii (s : String) : String :=
  String.mk (s.data.map Char.toLower)

/-- Splitting a character list at every occurrence of the separator `c`,
mirroring Rust's `str::split(c)` (empty segments are kept, the result is
always non-empty). -/
def splitChar (c : Char) : List Char → List (List Char)
  | [] => [[]]
  | x :: xs =>
    match splitChar c xs with
    | [] => if x = c then [[], []] else [[x]]
    | seg :: segs => if x = c then [] :: seg :: segs else (x :: seg) :: segs

/-- Is this character an ASCII digit? -/
def isDigitChar (c : Char) : Bool :=
  '0' ≤ c && c ≤ '9'

/-- Parsing a non-empty all-digit character list as a number, mirroring
Rust's `str::parse::<u32>` on the inputs the program feeds it. -/
def parseNat (s : List Char) : Option Nat :=
  if s ≠ [] && s.all isDigitChar then
    some (s.foldl (fun acc c => acc * 10 + (c.toNat - '0'.toNat)) 0)
  else
    none

/-- Calendar date, mirroring chrono's `NaiveDate`. -/
structure Date where
  year : Nat
  month : Nat
  day : Nat
deriving DecidableEq

/-- Is `y` a leap year (proleptic Gregorian calendar, as in chrono)? -/
def isLeapYear (y : Nat) : Bool :=
  y % 4 = 0 && (y % 100 ≠ 0 || y % 400 = 0)

/-- Number of days of month `m` in year `y`. -/
def daysInMonth (y m : Nat) : Nat :=
  if m = 2 then (if isLeapYear y then 29 else 28)
  else if m = 4 || m = 6 || m = 9 || m = 11 then 30
  else 31

/-- chrono's `NaiveDate::from_ymd_opt`: `some` exactly on valid calendar
dates. -/
def fromYmdOpt (y m d : Nat) : Option Date :=
  if 1 ≤ m && m ≤ 12 && 1 ≤ d && d ≤ daysInMonth y m then
    some ⟨y, m, d⟩
  else
    none

/-- Time of day, mirroring chrono's `NaiveTime`. -/
structure Time where
  hour : Nat
  minute : Nat
  second : Nat
deriving DecidableEq

/-- chrono's `NaiveTime::from_hms_opt`: `some` exactly on valid times. -/
def fromHmsOpt (h m s : Nat) : Option Time :=
  if h < 24 && m < 60 && s < 60 then some ⟨h, m, s⟩ else none

/-- Date and time, mirroring chrono's `NaiveDateTime`. -/
structure DateTime where
  date : Date
  time : Time
deriving DecidableEq

/-- Lexicographic order on dates, mirroring `NaiveDate`'s `Ord`. -/
def Date.leb (a b : Date) : Bool :=
  if a.year ≠ b.year then a.year < b.year
  else if a.month ≠ b.month then a.month < b.month
  else a.day ≤ b.day

/-- Lexicographic order on date-times, mirroring `NaiveDateTime`'s `Ord`. -/
def DateTime.leb (a b : DateTime) : Bool :=
  if a.date ≠ b.date then Date.leb a.date b.date
  else if a.time.hour ≠ b.time.hour then a.time.hour < b.time.hour
  else if a.time.minute ≠ b.time.minute then a.time.minute < b.time.minute
  else a.time.second ≤ b.time.second

/-- `cmp::min` on date-times (the two filesystem timestamps are compared
as `SystemTime`s in the source; the conversion to local date-times is
monotone, so taking the minimum after conversion is equivalent). -/
def DateTime.minDT (a b : DateTime) : DateTime :=
  if DateTime.leb a b then a else b

/-- Address of one file inside the diary, mirroring `DiaryFileId`. -/
structure DiaryFileId where
  date : Date
  name : String
deriving DecidableEq

/-- The `Display` rendering of a `DiaryFileId`:
`diary:YYYY/MM/DD/name`. -/
def DiaryFileId.render (id : DiaryFileId) : String :=
  "diary:" ++ pad4 id.date.year ++ "/" ++ pad2 id.date.month ++ "/" ++
    pad2 id.date.day ++ "/" ++ id.name

/-- The diary's on-disk content, as the set of file addresses that
exist: the snapshot queried by `DiaryRepository::has`. -/
abbrev Diary := List DiaryFileId

/-- `DiaryRepository::has`: does `id` exist in the diary? -/
def Diary.has (d : Diary) (id : DiaryFileId) : Bool :=
  List.contains d id

/-- `DiaryRepository::add`: refuses to overwrite an existing entry and
otherwise records the copy of `src` at `dst`. -/
def DiaryRepository.add (d : Diary) (src : List Char) (dst : DiaryFileId) :
    Except String Diary :=
  if Diary.has d dst then
    Except.error ("cannot add `" ++ String.mk src ++
      "` into diary, because it would overwrite `" ++ dst.render ++ "`")
  else
    Except.ok (dst :: d)

/-- Resolved identity of a source file, mirroring `SourceFileType`. -/
inductive SourceFileType where
  | note (date : Date)
  | photo (date : DateTime) (id : Option String)
  | video (date : DateTime) (id : Option String)
deriving DecidableEq

/-- `SourceFileType::date`: projection to the calendar date. -/
def SourceFileType.date : SourceFileType → Date
  | .note d => d
  | .photo d _ => d.date
  | .video d _ => d.date

/-- A recognized source file, mirroring `SourceFile`. -/
structure SourceFile where
  path : List Char
  stem : String
  ext : String
  ty : SourceFileType
deriving DecidableEq

/-- Outcome of parsing an embedded `DATE_TIME_ID` stem in
`SourceFileType::new`.  `panicked` is the `.unwrap()` of
`from_ymd_opt` / `from_hms_opt` firing on a `None`; `parseFail` is a
`str::parse` error propagated with `?`. -/
inductive StemDateOutcome where
  | noMatch
  | parseFail
  | panicked
  | ok (dt : DateTime) (id : String)
deriving DecidableEq

/-- The `DATE_TIME_ID` branch of `SourceFileType::new`: split the stem on
`'_'` into exactly three parts, the first `Y-M-D`, the second `H-M-S`,
the third the capture id; numeric parse failures abort with an error,
while out-of-range components hit an `.unwrap()` and panic. -/
def mediaStemDate (stem : String) : StemDateOutcome :=
  match splitChar '_' stem.data with
  | [newDate, newTime, newId] =>
    match splitChar '-' newDate, splitChar '-' newTime with
    | [y, mo, d], [h, mi, s] =>
      match parseNat y, parseNat mo, parseNat d,
          parseNat h, parseNat mi, parseNat s with
      | some y, some mo, some d, some h, some mi, some s =>
        match fromYmdOpt y mo d, fromHmsOpt h mi s with
        | some date, some time => .ok ⟨date, time⟩ (String.mk newId)
        | _, _ => .panicked
      | _, _, _, _, _, _ => .parseFail
    | _, _ => .noMatch
  | _ => .noMatch

/-- The `created_or_modified_at` closure of `SourceFileType::new`: both
filesystem timestamps available yields their minimum, one available
yields it, none is an error. -/
def created_or_modified_at (created modified : Option DateTime) :
    Except String DateTime :=
  match created, modified with
  | some c, some m => Except.ok (DateTime.minDT c m)
  | some c, none => Except.ok c
  | none, some m => Except.ok m
  | none, none => Except.error "Cannot determine file timestamp"

/-- Capture id fallback: `stem.strip_prefix("IMG_")`. -/
def imgId (stem : String) : Option String :=
  if stem.data.take 4 = "IMG_".data then
    some (String.mk (stem.data.drop 4))
  else
    none

/-- Outcome of `SourceFileType::new`: `unrecognized` is the `Ok(None)`
path, `err` an `anyhow` error aborting the run, `panicked` the
`.unwrap()` panics in the embedded-date branch. -/
inductive NewOutcome where
  | unrecognized
  | err (msg : String)
  | panicked
  | ok (ty : SourceFileType)
deriving DecidableEq

/-- The note (`org`) branch of `SourceFileType::new`: the stem must start
with `year-month-day` (extra `-`-separated parts are ignored); parse and
validity failures are errors. -/
def noteFileType (stem : String) : NewOutcome :=
  match splitChar '-' stem.data with
  | y :: mo :: d :: _ =>
    match parseNat y, parseNat mo, parseNat d with
    | some y, some mo, some d =>
      match fromYmdOpt y mo d with
      | some date => .ok (.note date)
      | none => .err "Invalid name: invalid date"
    | _, _, _ => .err "Invalid name: invalid year, month or day"
  | _ => .err "Invalid name: missing month"

/-- Inputs that `SourceFileType::new` obtains from collaborators: the
exiftool timestamps per tag and the filesystem timestamps. -/
structure FileMeta where
  exifPhoto : Option DateTime
  exifVideo : Option DateTime
  created : Option DateTime
  modified : Option DateTime

/-- `SourceFileType::new`: dispatch on the (lowercased) extension;
media identities resolve the timestamp from the stem, else exiftool,
else the filesystem, and the capture id from the stem or an `IMG_`
stem tag. -/
def SourceFileType.new (meta : FileMeta) (stem ext : String) : NewOutcome :=
  if ext = "org" then
    noteFileType stem
  else if ext = "jpg" || ext = "png" || ext = "webp" || ext = "heic" ||
      ext = "mov" || ext = "mp4" || ext = "webm" then
    let isPhoto := ext = "jpg" || ext = "png" || ext = "webp" || ext = "heic"
    match mediaStemDate stem with
    | .panicked => .panicked
    | .parseFail => .err "Invalid embedded date or time component"
    | .ok dt id =>
      .ok (if isPhoto then .photo dt (some id) else .video dt (some id))
    | .noMatch =>
      let exif := if isPhoto then meta.exifPhoto else meta.exifVideo
      let id := imgId stem
      match exif with
      | some dt => .ok (if isPhoto then .photo dt id else .video dt id)
      | none =>
        match created_or_modified_at meta.created meta.modified with
        | Except.ok dt => .ok (if isPhoto then .photo dt id else .video dt id)
        | Except.error e => .err e
  else
    .unrecognized

/-- The screenshot branch of `AddCmd::get_media_name`: a stem of exactly
four space-separated words `Screenshot <date> at <h.m.s>` yields
`<h>-<m>-<s> screenshot`, the time components copied verbatim from the
stem. -/
def screenshotName (stem : String) : Option String :=
  match splitChar ' ' stem.data with
  | [w1, _, w3, time] =>
    if w1 = "Screenshot".data && w3 = "at".data then
      match splitChar '.' time with
      | [h, m, d] =>
        some (String.mk h ++ "-" ++ String.mk m ++ "-" ++ String.mk d ++
          " screenshot")
      | _ => none
    else none
  | _ => none

/-- The screen-recording branch of `AddCmd::get_media_name`: a stem of
exactly five space-separated words `Screen Recording <date> at <h.m.s>`
yields `<h>-<m>-<s> recording`. -/
def recordingName (stem : String) : Option String :=
  match splitChar ' ' stem.data with
  | [w1, w2, _, w4, time] =>
    if w1 = "Screen".data && w2 = "Recording".data && w4 = "at".data then
      match splitChar '.' time with
      | [h, m, d] =>
        some (String.mk h ++ "-" ++ String.mk m ++ "-" ++ String.mk d ++
          " recording")
      | _ => none
    else none
  | _ => none

/-- `AddCmd::get_media_name`: with a capture id, `HH-MM-SS <lowercased
id>` with the time taken from the resolved timestamp `dt`; otherwise the
screenshot pattern, the screen-recording pattern, or the stem itself. -/
def get_media_name (file : SourceFile) (dt : DateTime) (id : Option String) :
    String :=
  match id with
  | some id =>
    pad2 dt.time.hour ++ "-" ++ pad2 dt.time.minute ++ "-" ++
      pad2 dt.time.second ++ " " ++ lowerAscii id
  | none =>
    match screenshotName file.stem with
    | some name => name
    | none =>
      match recordingName file.stem with
      | some name => name
      | none => file.stem

/-- One plan step, mirroring `Step`. -/
inductive Step where
  | copy (src : List Char) (dst : DiaryFileId)
  | skip (src : List Char) (reason : String)
  | remove (src : List Char) (reason : String)
  | convert (src dst : List Char)
deriving DecidableEq

/-- `Step::skip_or_remove`. -/
def Step.skip_or_remove (src : List Char) (reason : String) (remove : Bool) :
    Step :=
  if remove then Step.remove src reason else Step.skip src reason

/-- `Step::copy_and_remove`. -/
def Step.copy_and_remove (src : List Char) (dst : DiaryFileId)
    (remove : Bool) : List Step :=
  Step.copy src dst ::
    (if remove then [Step.remove src "just added into the diary"] else [])

/-- The add command's planning-relevant options, mirroring the `AddCmd`
fields (`from`/`to` renamed, `from` being a Lean keyword). -/
structure AddCmd where
  onDate : Option Date
  fromDate : Option Date
  toDate : Option Date
  remove : Bool
  dry_run : Bool
deriving DecidableEq

/-- `AddCmd::process_note`. -/
def process_note (cmd : AddCmd) (diary : Diary) (file : SourceFile)
    (file_dt : Date) : List Step :=
  let dst : DiaryFileId := ⟨file_dt, "index.org"⟩
  if Diary.has diary dst then
    [Step.skip_or_remove file.path "already in the diary" cmd.remove]
  else
    Step.copy_and_remove file.path dst cmd.remove

/-- Expected diary destination of a photo:
`<media name>.<source extension>` under the photo's date. -/
def photo_dst (file : SourceFile) (file_dt : DateTime)
    (file_id : Option String) : DiaryFileId :=
  ⟨file_dt.date, get_media_name file file_dt file_id ++ "." ++ file.ext⟩

/-- `AddCmd::process_photo`. -/
def process_photo (cmd : AddCmd) (diary : Diary) (file : SourceFile)
    (file_dt : DateTime) (file_id : Option String) : List Step :=
  let dst := photo_dst file file_dt file_id
  if Diary.has diary dst then
    [Step.skip_or_remove file.path "already in the diary" cmd.remove]
  else
    Step.copy_and_remove file.path dst cmd.remove

/-- Diary destination of a video under the given extension:
`<media name>.<ext>` under the video's date (the `mk_dst` closure of
`AddCmd::process_video`). -/
def video_dst (file : SourceFile) (file_dt : DateTime)
    (file_id : Option String) (ext : String) : DiaryFileId :=
  ⟨file_dt.date, get_media_name file file_dt file_id ++ "." ++ ext⟩

/-- The `will_have_photo` condition of `AddCmd::process_video`: the video
has a capture id and some scanned photo carries the same id (the date is
not compared). -/
def will_have_photo (files : List SourceFile) (file_id : Option String) :
    Bool :=
  file_id.isSome && files.any fun src =>
    match src.ty with
    | .photo _ id2 => file_id = id2
    | _ => false

/-- The path of the temporary transcoding artifact, `/tmp/video.mp4`. -/
def tmpVideoPath : List Char := "/tmp/video.mp4".data

/-- `AddCmd::process_video`. -/
def process_video (cmd : AddCmd) (diary : Diary) (files : List SourceFile)
    (file : SourceFile) (file_dt : DateTime) (file_id : Option String) :
    List Step :=
  let dst := video_dst file file_dt file_id "mp4"
  let dst_jpg := video_dst file file_dt file_id "jpg"
  let dst_heic := video_dst file file_dt file_id "heic"
  if Diary.has diary dst || Diary.has diary dst_heic then
    [Step.skip_or_remove file.path "already in the diary" cmd.remove]
  else if Diary.has diary dst_jpg || will_have_photo files file_id then
    [Step.skip_or_remove file.path "already in the diary as a photo"
      cmd.remove]
  else
    [Step.convert file.path tmpVideoPath,
     Step.copy tmpVideoPath dst,
     Step.remove tmpVideoPath "temporary artifact"] ++
      (if cmd.remove then
        [Step.remove file.path "just added into the diary"]
      else [])

/-- The per-file dispatch of `AddCmd::process`, producing one file's
steps. -/
def processFile (cmd : AddCmd) (diary : Diary) (files : List SourceFile)
    (file : SourceFile) : List Step :=
  match file.ty with
  | .note date => process_note cmd diary file date
  | .photo date id => process_photo cmd diary file date id
  | .video date id => process_video cmd diary files file date id

/-- `AddCmd::process`: the plan is the concatenation of every file's
steps, in file order. -/
def process (cmd : AddCmd) (diary : Diary) (files : List SourceFile) :
    List Step :=
  files.flatMap (processFile cmd diary files)

/-- The date filter applied during `AddCmd::scan`: each of `on`, `from`
and `to` constrains the file's resolved date when set. -/
def scanFilter (cmd : AddCmd) (files : List SourceFile) : List SourceFile :=
  files.filter fun file =>
    let date := file.ty.date
    (cmd.onDate.all fun d0 => date = d0) &&
      (cmd.fromDate.all fun lo => Date.leb lo date) &&
      (cmd.toDate.all fun hi => Date.leb date hi)

/-- The sort at the end of `AddCmd::scan`: files ordered by path. -/
def sortByPath (files : List SourceFile) : List SourceFile :=
  files.insertionSort fun a b => a.path ≤ b.path

/-- `AddCmd::scan`, from the already-resolved recognized files: filter by
date, then sort by path. -/
def scan (cmd : AddCmd) (found : List SourceFile) : List SourceFile :=
  sortByPath (scanFilter cmd found)

/-- The clap argument constraints on `AddCmd`: `from` and `to` each
conflict with `on`, and `to` requires `from`. -/
def cliAccepts (cmd : AddCmd) : Bool :=
  !(cmd.fromDate.isSome && cmd.onDate.isSome) &&
    !(cmd.toDate.isSome && cmd.onDate.isSome) &&
    (!cmd.toDate.isSome || cmd.fromDate.isSome)

/-- Executor statistics, mirroring `Stats`. -/
structure Stats where
  skipped : Nat
  copied : Nat
  removed : Nat
deriving DecidableEq

/-- One progress line written by the executor: the tense-bearing verb
(`Copying` vs `Would copy`, ...) and the rest of the line. -/
structure Desc where
  verb : String
  body : String
deriving DecidableEq

/-- The mutable world the executor acts on: the diary entries and the
source-tree / temporary files currently present. -/
structure ExecState where
  diary : Diary
  fsFiles : List (List Char)
deriving DecidableEq

/-- The ` | i/N` progress suffix of every executor line. -/
def renderIdx (idx n : Nat) : String :=
  " | " ++ toString (idx + 1) ++ "/" ++ toString n

/-- `AddCmd::execute_copy`: print, then (unless dry-run) delegate to
`DiaryRepository::add`, then count the copy. -/
def execute_copy (cmd : AddCmd) (st : ExecState) (stats : Stats)
    (src : List Char) (dst : DiaryFileId) (idx n : Nat) :
    Except String (ExecState × Stats × Desc) :=
  let verb := if cmd.dry_run then "Would copy" else "Copying"
  let desc : Desc :=
    ⟨verb, String.mk src ++ " to " ++ dst.render ++ renderIdx idx n⟩
  let stats2 : Stats := ⟨stats.skipped, stats.copied + 1, stats.removed⟩
  if cmd.dry_run then
    Except.ok (st, stats2, desc)
  else
    match DiaryRepository.add st.diary src dst with
    | Except.error e => Except.error e
    | Except.ok d2 => Except.ok (⟨d2, st.fsFiles⟩, stats2, desc)

/-- `AddCmd::execute_skip`: print and count; never mutates. -/
def execute_skip (cmd : AddCmd) (st : ExecState) (stats : Stats)
    (src : List Char) (reason : String) (idx n : Nat) :
    Except String (ExecState × Stats × Desc) :=
  let verb := if cmd.dry_run then "Would skip" else "Skipping"
  let desc : Desc :=
    ⟨verb, String.mk src ++ " (" ++ reason ++ ")" ++ renderIdx idx n⟩
  Except.ok (st, ⟨stats.skipped + 1, stats.copied, stats.removed⟩, desc)

/-- `AddCmd::execute_remove`: print, then (unless dry-run) remove the
file — an error if it is not present — then count the removal. -/
def execute_remove (cmd : AddCmd) (st : ExecState) (stats : Stats)
    (src : List Char) (reason : String) (idx n : Nat) :
    Except String (ExecState × Stats × Desc) :=
  let verb := if cmd.dry_run then "Would remove" else "Removing"
  let desc : Desc :=
    ⟨verb, String.mk src ++ " (" ++ reason ++ ")" ++ renderIdx idx n⟩
  let stats2 : Stats := ⟨stats.skipped, stats.copied, stats.removed + 1⟩
  if cmd.dry_run then
    Except.ok (st, stats2, desc)
  else if st.fsFiles.contains src then
    Except.ok (⟨st.diary, st.fsFiles.erase src⟩, stats2, desc)
  else
    Except.error ("Couldn't remove: " ++ String.mk src)

/-- `AddCmd::execute_convert`: print, then (unless dry-run) run the
transcoder, which writes `dst` and fails when the input is missing; no
statistic is counted. -/
def execute_convert (cmd : AddCmd) (st : ExecState) (stats : Stats)
    (src dst : List Char) (idx n : Nat) :
    Except String (ExecState × Stats × Desc) :=
  let verb := if cmd.dry_run then "Would convert" else "Converting"
  let desc : Desc :=
    ⟨verb, String.mk src ++ " to " ++ String.mk dst ++ renderIdx idx n⟩
  if cmd.dry_run then
    Except.ok (st, stats, desc)
  else if st.fsFiles.contains src then
    Except.ok (⟨st.diary, dst :: st.fsFiles⟩, stats, desc)
  else
    Except.error "ffmpeg failed"

/-- One step of the executor loop of `AddCmd::execute`. -/
def executeStep (cmd : AddCmd) (st : ExecState) (stats : Stats)
    (step : Step) (idx n : Nat) : Except String (ExecState × Stats × Desc) :=
  match step with
  | .copy src dst => execute_copy cmd st stats src dst idx n
  | .skip src reason => execute_skip cmd st stats src reason idx n
  | .remove src reason => execute_remove cmd st stats src reason idx n
  | .convert src dst => execute_convert cmd st stats src dst idx n

/-- The executor loop of `AddCmd::execute`, threading state and
statistics and collecting the progress lines; the first error aborts. -/
def executeSteps (cmd : AddCmd) (n : Nat) :
    List Step → Nat → ExecState → Stats →
    Except String (ExecState × Stats × List Desc)
  | [], _, st, stats => Except.ok (st, stats, [])
  | step :: rest, idx, st, stats =>
    match executeStep cmd st stats step idx n with
    | Except.error e => Except.error e
    | Except.ok (st2, stats2, desc) =>
      match executeSteps cmd n rest (idx + 1) st2 stats2 with
      | Except.error e => Except.error e
      | Except.ok (st3, stats3, descs) =>
        Except.ok (st3, stats3, desc :: descs)

/-- `AddCmd::execute`: run every step of the plan in order. -/
def execute (cmd : AddCmd) (plan : List Step) (st : ExecState) :
    Except String (ExecState × Stats × List Desc) :=
  executeSteps cmd plan.length plan 0 st ⟨0, 0, 0⟩

/-- Command options with every flag off and no date filter. -/
def cmdPlain : AddCmd := ⟨none, none, none, false, false⟩

/-- Fixture date 2018-01-14. -/
def dateA : Date := ⟨2018, 1, 14⟩

/-- Fixture timestamp 2018-01-14 12:34:56. -/
def dtA : DateTime := ⟨dateA, ⟨12, 34, 56⟩⟩

/-- Fixture date 2019-05-05. -/
def dateB : Date := ⟨2019, 5, 5⟩

/-- Fixture timestamp 2019-05-05 09:08:07. -/
def dtB : DateTime := ⟨dateB, ⟨9, 8, 7⟩⟩

/-- Fixture video with capture id `AB`, taken 2018-01-14 12:34:56. -/
def videoAB : SourceFile := ⟨"v.mov".data, "v", "mov", .video dtA (some "AB")⟩

/-- Fixture photo with capture id `AB` but taken on 2019-05-05, a
different date than `videoAB`. -/
def photoOtherDay : SourceFile := ⟨"p.jpg".data, "p", "jpg", .photo dtB (some "AB")⟩

/-- Fixture photo with capture id `AB`, taken 2018-01-14 12:34:56. -/
def photoSameDay : SourceFile := ⟨"q.jpg".data, "q", "jpg", .photo dtA (some "AB")⟩

/-- Diary holding, under 2018-01-14, the entry `13-00-00 ab.jpg`: the
capture `ab` filed under a different time than `photoSameDay` resolves
to. -/
def diaryMismatch : Diary := [⟨dateA, "13-00-00 ab.jpg"⟩]

/-- Diary holding, under 2018-01-14, the companion photo of `videoAB` as
a `.png`. -/
def diaryPng : Diary := [⟨dateA, "12-34-56 ab.png"⟩]

/-- Diary holding, under 2018-01-14, the companion photo of `videoAB` as
a `.jpg`. -/
def diaryJpg : Diary := [⟨dateA, "12-34-56 ab.jpg"⟩]

/-- Diary holding, under 2018-01-14, the companion photo of `videoAB` as
a `.heic`. -/
def diaryHeic : Diary := [⟨dateA, "12-34-56 ab.heic"⟩]

/-- Fixture timestamp 2018-01-14 01:02:03. -/
def dtC : DateTime := ⟨dateA, ⟨1, 2, 3⟩⟩

/-- Fixture photo without capture id whose stem is a plain word. -/
def fileFoo : SourceFile := ⟨"f.jpg".data, "foo", "jpg", .photo dtC none⟩

/-- Fixture photo without capture id whose stem is a macOS screenshot
name. -/
def fileShot : SourceFile :=
  ⟨"s.png".data, "Screenshot 2018-01-14 at 12.34.56", "png", .photo dtA none⟩

/-- File metadata with no exiftool answer and no filesystem
timestamps. -/
def metaNone : FileMeta := ⟨none, none, none, none⟩

/-- Fixture video without capture id whose stem is a macOS screen
recording name. -/
def fileRec : SourceFile :=
  ⟨"r.mov".data, "Screen Recording 2018-01-14 at 12.34.56", "mov",
    .video dtA none⟩

/-- The media identity the extension class selects in
`SourceFileType::new`: the photo extensions yield a photo, the video
extensions a video. -/
def mediaFileTypeFor (ext : String) (dt : DateTime) (id : Option String) :
    SourceFileType :=
  if ext = "jpg" || ext = "png" || ext = "webp" || ext = "heic" then
    SourceFileType.photo dt id
  else
    SourceFileType.video dt id

/-- Claim C6, failing input: the embedded-date branch of
`SourceFileType::new` calls `.unwrap()` on `from_ymd_opt` /
`from_hms_opt`, so a recognized media file whose stem carries a numeric
but invalid date (month 13) or time (hour 25) makes the program panic
instead of surfacing the per-file error the spec requires. -/
theorem c6_invalid_embedded_date_panics :
    mediaStemDate "2018-13-01_12-00-00_ABCD" = StemDateOutcome.panicked ∧
    SourceFileType.new metaNone "2018-13-01_12-00-00_ABCD" "jpg" =
      NewOutcome.panicked ∧
    mediaStemDate "2018-01-14_25-00-00_ABCD" = StemDateOutcome.panicked ∧
    fromYmdOpt 2018 13 1 = none ∧
    fromHmsOpt 25 0 0 = none := by
  decide

/-- Claim C4, counterexample: for a photo with no capture id and a plain
stem, the media name is the stem alone — it is not prefixed with the
`HH-MM-SS` time of the resolved timestamp (here 01:02:03). -/
theorem c4_counterexample :
    get_media_name fileFoo dtC none = "foo" ∧
    get_media_name fileFoo dtC none ≠ "01-02-03 foo" := by
  decide

/-- Claim C4, amended: with a capture id the media name is
`HH-MM-SS <lowercased id>` with the time taken from the resolved
timestamp; without one, every stem matching the screenshot pattern
(four space-separated words `Screenshot <date> at <h.m.s>`) yields
`<h>-<m>-<s> screenshot` and every stem matching the screen-recording
pattern (five words `Screen Recording <date> at <h.m.s>`) yields
`<h>-<m>-<s> recording`, the time components copied verbatim from the
stem (independent of the resolved timestamp); a stem matching neither
pattern is used verbatim, with no time prefix. -/
theorem c4_media_name_shape (file : SourceFile) (dt : DateTime) (id : String)
    (w2 w3 time h m s : List Char) :
    get_media_name file dt (some id) =
      pad2 dt.time.hour ++ "-" ++ pad2 dt.time.minute ++ "-" ++
        pad2 dt.time.second ++ " " ++ lowerAscii id ∧
    (splitChar ' ' file.stem.data = ["Screenshot".data, w2, "at".data, time] →
     splitChar '.' time = [h, m, s] →
     get_media_name file dt none =
       String.mk h ++ "-" ++ String.mk m ++ "-" ++ String.mk s ++
         " screenshot") ∧
    (splitChar ' ' file.stem.data =
        ["Screen".data, "Recording".data, w3, "at".data, time] →
     splitChar '.' time = [h, m, s] →
     get_media_name file dt none =
       String.mk h ++ "-" ++ String.mk m ++ "-" ++ String.mk s ++
         " recording") ∧
    (screenshotName file.stem = none → recordingName file.stem = none →
      get_media_name file dt none = file.stem) := by
  refine ⟨rfl, fun hsplit htime => ?_, fun hsplit htime => ?_,
    fun h1 h2 => ?_⟩
  · have hs : screenshotName file.stem = some (String.mk h ++ "-" ++
        String.mk m ++ "-" ++ String.mk s ++ " screenshot") := by
      simp only [screenshotName, hsplit, htime]
      simp
    simp only [get_media_name, hs]
  · have hr : recordingName file.stem = some (String.mk h ++ "-" ++
        String.mk m ++ "-" ++ String.mk s ++ " recording") := by
      simp only [recordingName, hsplit, htime]
      simp
    have hs : screenshotName file.stem = none := by
      simp only [screenshotName, hsplit]
    simp only [get_media_name, hs, hr]
  · simp only [get_media_name, h1, h2]

/-- Claim C4, witness: the amended statement applied to the screenshot
fixture, the screen-recording fixture and the plain stem `foo` — each
pattern clause and the verbatim fallback discharged at a concrete
stem. -/
theorem c4_media_name_shape_witness :
    get_media_name fileShot dtA none = "12-34-56 screenshot" ∧
    get_media_name fileRec dtA none = "12-34-56 recording" ∧
    get_media_name fileFoo dtC none = "foo" :=
  ⟨(c4_media_name_shape fileShot dtA "AB" "2018-01-14".data [] "12.34.56".data
      "12".data "34".data "56".data).2.1 (by decide) (by decide),
   (c4_media_name_shape fileRec dtA "AB" [] "2018-01-14".data "12.34.56".data
      "12".data "34".data "56".data).2.2.1 (by decide) (by decide),
   (c4_media_name_shape fileFoo dtC "AB" [] [] [] [] [] []).2.2.2
     (by decide) (by decide)⟩

/-- Claim C2, counterexample: the diary holds, under the same date, the
entry `13-00-00 ab.jpg` — which ends with ` ab.jpg` and differs from the
expected target name `12-34-56 ab.jpg` — yet the planner emits a plain
`Copy` (import) for the photo, not the skip flagging a timestamp
mismatch that the claim requires. -/
theorem c2_counterexample :
    Diary.has diaryMismatch (photo_dst photoSameDay dtA (some "AB")) = false ∧
    (photo_dst photoSameDay dtA (some "AB")).name = "12-34-56 ab.jpg" ∧
    List.contains diaryMismatch ⟨dateA, "13-00-00 ab.jpg"⟩ = true ∧
    List.isSuffixOf " ab.jpg".data "13-00-00 ab.jpg".data = true ∧
    "13-00-00 ab.jpg" ≠ (photo_dst photoSameDay dtA (some "AB")).name ∧
    process_photo cmdPlain diaryMismatch photoSameDay dtA (some "AB") =
      [Step.copy photoSameDay.path (photo_dst photoSameDay dtA (some "AB"))] := by
  decide

/-- Claim C2, amended: the planner has no timestamp-mismatch rule.  Its
decisions depend on the diary only through existence of the expected
target names (for a photo its own target, for a video the `mp4`, `heic`
and `jpg` targets), so a same-date entry ending with
` <captureId>.<ext>` under any other name has no effect, and a photo
whose expected target is absent is always imported. -/
theorem c2_no_timestamp_mismatch_rule (cmd : AddCmd) (diary diary2 : Diary)
    (files : List SourceFile) (file : SourceFile) (dt : DateTime)
    (id : Option String)
    (hp : Diary.has diary2 (photo_dst file dt id) =
      Diary.has diary (photo_dst file dt id))
    (h1 : Diary.has diary2 (video_dst file dt id "mp4") =
      Diary.has diary (video_dst file dt id "mp4"))
    (h2 : Diary.has diary2 (video_dst file dt id "heic") =
      Diary.has diary (video_dst file dt id "heic"))
    (h3 : Diary.has diary2 (video_dst file dt id "jpg") =
      Diary.has diary (video_dst file dt id "jpg")) :
    process_photo cmd diary2 file dt id = process_photo cmd diary file dt id ∧
    process_video cmd diary2 files file dt id =
      process_video cmd diary files file dt id ∧
    (Diary.has diary (photo_dst file dt id) = false →
      process_photo cmd diary file dt id =
        Step.copy_and_remove file.path (photo_dst file dt id) cmd.remove) := by
  refine ⟨?_, ?_, fun h => ?_⟩
  · simp only [process_photo, hp]
  · simp only [process_video, h1, h2, h3]
  · simp only [process_photo, h, Bool.false_eq_true, if_false]

/-- Claim C2, witness: the amended statement applied to the mismatch
fixture — the entry `13-00-00 ab.jpg` leaves the photo's and the video's
steps exactly as with an empty diary, and the photo is imported. -/
theorem c2_no_timestamp_mismatch_rule_witness :
    process_photo cmdPlain diaryMismatch photoSameDay dtA (some "AB") =
      process_photo cmdPlain [] photoSameDay dtA (some "AB") ∧
    process_video cmdPlain diaryMismatch [photoSameDay] photoSameDay dtA
        (some "AB") =
      process_video cmdPlain [] [photoSameDay] photoSameDay dtA (some "AB") ∧
    (Diary.has [] (photo_dst photoSameDay dtA (some "AB")) = false →
      process_photo cmdPlain [] photoSameDay dtA (some "AB") =
        Step.copy_and_remove photoSameDay.path
          (photo_dst photoSameDay dtA (some "AB")) cmdPlain.remove) :=
  c2_no_timestamp_mismatch_rule cmdPlain [] diaryMismatch [photoSameDay]
    photoSameDay dtA (some "AB") (by decide) (by decide) (by decide) (by decide)

/-- Claim C3, counterexample: the diary holds the companion photo of
`videoAB` under the recognized photo extension `png`, yet the planner
emits the import steps for the video rather than the
"already in the diary as a photo" skip the claim requires. -/
theorem c3_counterexample :
    Diary.has diaryPng ⟨dtA.date, get_media_name videoAB dtA (some "AB") ++
      ".png"⟩ = true ∧
    process_video cmdPlain diaryPng [videoAB] videoAB dtA (some "AB") =
      [Step.convert videoAB.path tmpVideoPath,
       Step.copy tmpVideoPath (video_dst videoAB dtA (some "AB") "mp4"),
       Step.remove tmpVideoPath "temporary artifact"] := by
  decide

/-- Claim C3, amended: of the recognized photo extensions only a `jpg`
companion under the expected name produces the
"already in the diary as a photo" skip; a `heic` companion is caught by
the earlier duplicate check with reason "already in the diary"; and with
no `mp4`/`heic`/`jpg` companion and no companion photo in the batch the
video is imported — `png` or `webp` companions have no effect. -/
theorem c3_companion_extensions (cmd : AddCmd) (diary : Diary)
    (files : List SourceFile) (file : SourceFile) (dt : DateTime)
    (id : Option String) :
    (Diary.has diary (video_dst file dt id "mp4") = false →
     Diary.has diary (video_dst file dt id "heic") = false →
     Diary.has diary (video_dst file dt id "jpg") = true →
     process_video cmd diary files file dt id =
       [Step.skip_or_remove file.path "already in the diary as a photo"
         cmd.remove]) ∧
    (Diary.has diary (video_dst file dt id "heic") = true →
     process_video cmd diary files file dt id =
       [Step.skip_or_remove file.path "already in the diary" cmd.remove]) ∧
    (Diary.has diary (video_dst file dt id "mp4") = false →
     Diary.has diary (video_dst file dt id "heic") = false →
     Diary.has diary (video_dst file dt id "jpg") = false →
     will_have_photo files id = false →
     process_video cmd diary files file dt id =
       [Step.convert file.path tmpVideoPath,
        Step.copy tmpVideoPath (video_dst file dt id "mp4"),
        Step.remove tmpVideoPath "temporary artifact"] ++
         (if cmd.remove then [Step.remove file.path "just added into the diary"]
          else [])) := by
  refine ⟨fun h1 h2 h3 => ?_, fun h2 => ?_, fun h1 h2 h3 h4 => ?_⟩
  · simp only [process_video, h1, h2, h3, Bool.false_or, Bool.true_or,
      if_false, if_true, Bool.false_eq_true]
  · simp only [process_video, h2, Bool.or_true, if_true]
  · simp only [process_video, h1, h2, h3, h4, Bool.false_or, if_false,
      Bool.false_eq_true]

/-- Claim C3, witness: the amended statement applied to the fixtures —
a `jpg` companion skips `videoAB` with the photo reason, a `heic`
companion skips it with the plain duplicate reason, and with the `png`
companion diary the video is imported. -/
theorem c3_companion_extensions_witness :
    process_video cmdPlain diaryJpg [videoAB] videoAB dtA (some "AB") =
      [Step.skip_or_remove videoAB.path "already in the diary as a photo"
        cmdPlain.remove] ∧
    process_video cmdPlain diaryHeic [videoAB] videoAB dtA (some "AB") =
      [Step.skip_or_remove videoAB.path "already in the diary"
        cmdPlain.remove] ∧
    process_video cmdPlain diaryPng [videoAB] videoAB dtA (some "AB") =
      [Step.convert videoAB.path tmpVideoPath,
       Step.copy tmpVideoPath (video_dst videoAB dtA (some "AB") "mp4"),
       Step.remove tmpVideoPath "temporary artifact"] ++
        (if cmdPlain.remove then
          [Step.remove videoAB.path "just added into the diary"]
         else []) :=
  ⟨(c3_companion_extensions cmdPlain diaryJpg [videoAB] videoAB dtA
      (some "AB")).1 (by decide) (by decide) (by decide),
   (c3_companion_extensions cmdPlain diaryHeic [videoAB] videoAB dtA
      (some "AB")).2.1 (by decide),
   (c3_companion_extensions cmdPlain diaryPng [videoAB] videoAB dtA
      (some "AB")).2.2 (by decide) (by decide) (by decide) (by decide)⟩

/-- A boolean `any` over a list is invariant under permutation of the
list. -/
lemma perm_any {α : Type} {l1 l2 : List α} (h : l1.Perm l2) (p : α → Bool) :
    l1.any p = l2.any p := by
  have h2 : (l1.any p = true) ↔ (l2.any p = true) := by
    simp only [List.any_eq_true]
    exact ⟨fun ⟨x, hx, hp2⟩ => ⟨x, h.mem_iff.mp hx, hp2⟩,
           fun ⟨x, hx, hp2⟩ => ⟨x, h.mem_iff.mpr hx, hp2⟩⟩
  exact Bool.eq_iff_iff.mpr h2

/-- The `will_have_photo` condition holds exactly when some scanned file
is a photo carrying the same capture id — the date plays no role. -/
lemma whp_iff (files : List SourceFile) (vid : String) :
    (will_have_photo files (some vid) = true) ↔
      ∃ src ∈ files, ∃ d, src.ty = SourceFileType.photo d (some vid) := by
  simp only [will_have_photo, Option.isSome_some, Bool.true_and,
    List.any_eq_true]
  constructor
  · rintro ⟨src, hmem, hp⟩
    refine ⟨src, hmem, ?_⟩
    cases hsrc : src.ty with
    | note d => rw [hsrc] at hp; simp at hp
    | video d id2 => rw [hsrc] at hp; simp at hp
    | photo d id2 =>
      rw [hsrc] at hp
      simp only [decide_eq_true_eq] at hp
      exact ⟨d, by rw [← hp]⟩
  · rintro ⟨src, hmem, d, hty⟩
    exact ⟨src, hmem, by rw [hty]; simp⟩

/-- Claim C1, counterexample: with an empty diary the batch holds a
photo sharing `videoAB`'s capture id but taken on a different date, so
no scanned photo shares both the date and the capture id — yet the
planner skips the video with the photo-companion reason instead of
letting it through, because `will_have_photo` compares capture ids only. -/
theorem c1_counterexample :
    ((([photoOtherDay, videoAB] : List SourceFile).all fun src =>
      match src.ty with
      | SourceFileType.photo d i => !(d.date = dtA.date && i = some "AB")
      | _ => true) = true) ∧
    process_video cmdPlain [] [photoOtherDay, videoAB] videoAB dtA
        (some "AB") =
      [Step.skip videoAB.path "already in the diary as a photo"] := by
  decide

/-- Claim C1, amended: for a video with a capture id whose three target
names are absent from the diary, the planner emits the photo-companion
skip (or delete in remove mode) exactly when a photo sharing the same
capture id — regardless of date — is present among the scanned files,
and the decision is independent of scan order. -/
theorem c1_companion_photo_by_id (cmd : AddCmd) (diary : Diary)
    (files : List SourceFile) (file : SourceFile) (dt : DateTime)
    (vid : String)
    (h1 : Diary.has diary (video_dst file dt (some vid) "mp4") = false)
    (h2 : Diary.has diary (video_dst file dt (some vid) "heic") = false)
    (h3 : Diary.has diary (video_dst file dt (some vid) "jpg") = false) :
    (process_video cmd diary files file dt (some vid) =
        [Step.skip_or_remove file.path "already in the diary as a photo"
          cmd.remove]
      ↔ ∃ src ∈ files, ∃ d, src.ty = SourceFileType.photo d (some vid)) ∧
    (∀ files2, files.Perm files2 →
      process_video cmd diary files2 file dt (some vid) =
        process_video cmd diary files file dt (some vid)) := by
  constructor
  · rw [← whp_iff files vid]
    by_cases hw : will_have_photo files (some vid) = true
    · simp only [process_video, h1, h2, h3, hw, Bool.false_or, if_false,
        if_true, Bool.false_eq_true]
    · have hw2 : will_have_photo files (some vid) = false := by
        cases hwb : will_have_photo files (some vid)
        · rfl
        · exact absurd hwb hw
      simp only [process_video, h1, h2, h3, hw2, Bool.false_or, if_false,
        Bool.false_eq_true]
      constructor
      · intro heq
        exfalso
        cases hr : cmd.remove <;> rw [hr] at heq <;> simp at heq
      · exact fun heq => heq.elim
  · intro files2 hperm
    have hany : will_have_photo files2 (some vid) =
        will_have_photo files (some vid) := by
      simp only [will_have_photo]
      rw [perm_any hperm.symm]
    simp only [process_video, hany]

/-- Claim C1, witness: the amended statement applied to the batch
holding `photoOtherDay` (same capture id, different date) and
`videoAB`, with an empty diary. -/
theorem c1_companion_photo_by_id_witness :
    Diary.has [] (video_dst videoAB dtA (some "AB") "mp4") = false ∧
    ((process_video cmdPlain [] [photoOtherDay, videoAB] videoAB dtA
          (some "AB") =
        [Step.skip_or_remove videoAB.path "already in the diary as a photo"
          cmdPlain.remove]
      ↔ ∃ src ∈ [photoOtherDay, videoAB], ∃ d,
          src.ty = SourceFileType.photo d (some "AB")) ∧
     (∀ files2, List.Perm [photoOtherDay, videoAB] files2 →
       process_video cmdPlain [] files2 videoAB dtA (some "AB") =
         process_video cmdPlain [] [photoOtherDay, videoAB] videoAB dtA
           (some "AB"))) :=
  ⟨by decide,
   c1_companion_photo_by_id cmdPlain [] [photoOtherDay, videoAB] videoAB dtA
     "AB" (by decide) (by decide) (by decide)⟩

/-- Claim C5, counterexample: with creation time 12:34:56 and the
earlier modification time 01:02:03 both available, the resolved
timestamp is the modification time, not the creation time the claim
requires — `created_or_modified_at` takes the minimum of the two. -/
theorem c5_counterexample :
    created_or_modified_at (some dtA) (some dtC) = Except.ok dtC ∧
    dtC ≠ dtA ∧
    SourceFileType.new ⟨none, none, some dtA, some dtC⟩ "foo" "jpg" =
      NewOutcome.ok (SourceFileType.photo dtC none) :=
  ⟨rfl, by decide, by decide⟩

/-- Claim C5, amended: for every media file (any of the seven
recognized photo/video extensions) whose stem embeds no date and with
no extractor timestamp, the resolved timestamp is the minimum of the
filesystem creation and modification times when both are available
(creation only when it is not later), the one available when only one
is, and an error when neither is obtainable. -/
theorem c5_fs_time_fallback (c m : DateTime) (stem ext : String)
    (hstem : mediaStemDate stem = StemDateOutcome.noMatch)
    (hext : ext = "jpg" ∨ ext = "png" ∨ ext = "webp" ∨ ext = "heic" ∨
      ext = "mov" ∨ ext = "mp4" ∨ ext = "webm") :
    SourceFileType.new ⟨none, none, some c, some m⟩ stem ext =
      NewOutcome.ok (mediaFileTypeFor ext (DateTime.minDT c m) (imgId stem)) ∧
    (DateTime.minDT c m = c ∨ DateTime.minDT c m = m) ∧
    (DateTime.leb c m = true → DateTime.minDT c m = c) ∧
    (DateTime.leb c m = false → DateTime.minDT c m = m) ∧
    SourceFileType.new ⟨none, none, some c, none⟩ stem ext =
      NewOutcome.ok (mediaFileTypeFor ext c (imgId stem)) ∧
    SourceFileType.new ⟨none, none, none, some m⟩ stem ext =
      NewOutcome.ok (mediaFileTypeFor ext m (imgId stem)) ∧
    SourceFileType.new ⟨none, none, none, none⟩ stem ext =
      NewOutcome.err "Cannot determine file timestamp" := by
  rcases hext with h | h | h | h | h | h | h <;> subst h <;>
    refine ⟨?_, ?_, fun hle => ?_, fun hle => ?_, ?_, ?_, ?_⟩ <;>
    first
      | simp [SourceFileType.new, hstem, created_or_modified_at,
          mediaFileTypeFor]
      | (unfold DateTime.minDT; split
         · exact Or.inl rfl
         · exact Or.inr rfl)
      | simp [DateTime.minDT, hle]

/-- Claim C5, witness: the amended statement applied to the stem `foo`
under a video extension (`mov`) and a photo extension (`jpg`), with
creation time 12:34:56 and modification time 01:02:03. -/
theorem c5_fs_time_fallback_witness :
    mediaStemDate "foo" = StemDateOutcome.noMatch ∧
    SourceFileType.new ⟨none, none, some dtA, some dtC⟩ "foo" "mov" =
      NewOutcome.ok
        (SourceFileType.video (DateTime.minDT dtA dtC) (imgId "foo")) ∧
    SourceFileType.new ⟨none, none, some dtA, some dtC⟩ "foo" "jpg" =
      NewOutcome.ok
        (SourceFileType.photo (DateTime.minDT dtA dtC) (imgId "foo")) :=
  ⟨by decide,
   (c5_fs_time_fallback dtA dtC "foo" "mov" (by decide)
     (Or.inr (Or.inr (Or.inr (Or.inr (Or.inl rfl)))))).1,
   (c5_fs_time_fallback dtA dtC "foo" "jpg" (by decide) (Or.inl rfl)).1⟩

/-- Claim C7: with the destination already present in the diary,
`DiaryRepository::add` returns an error and never an updated diary (so
the existing entry is untouched), and executing an import step against
that destination outside dry-run is a fatal error for the run. -/
theorem c7_put_never_overwrites (cmd : AddCmd) (st : ExecState)
    (src : List Char) (dst : DiaryFileId) (stats : Stats) (idx n : Nat)
    (hdry : cmd.dry_run = false)
    (h : Diary.has st.diary dst = true) :
    (∃ e, DiaryRepository.add st.diary src dst = Except.error e) ∧
    (∀ d2, DiaryRepository.add st.diary src dst = Except.ok d2 → False) ∧
    (∃ e, execute_copy cmd st stats src dst idx n = Except.error e) ∧
    (∃ e, execute cmd [Step.copy src dst] st = Except.error e) := by
  refine ⟨?_, fun d2 hok => ?_, ?_, ?_⟩
  · simp [DiaryRepository.add, h]
  · rw [DiaryRepository.add, if_pos h] at hok
    exact absurd hok (by simp)
  · simp [execute_copy, hdry, DiaryRepository.add, h]
  · simp [execute, executeSteps, executeStep, execute_copy, hdry,
      DiaryRepository.add, h]

/-- Claim C7, witness: adding over the existing entry
`12-34-56 ab.jpg` fails, and an import step aimed at it is fatal. -/
theorem c7_put_never_overwrites_witness :
    Diary.has diaryJpg ⟨dateA, "12-34-56 ab.jpg"⟩ = true ∧
    ((∃ e, DiaryRepository.add diaryJpg "x.jpg".data
        ⟨dateA, "12-34-56 ab.jpg"⟩ = Except.error e) ∧
     (∀ d2, DiaryRepository.add diaryJpg "x.jpg".data
        ⟨dateA, "12-34-56 ab.jpg"⟩ = Except.ok d2 → False) ∧
     (∃ e, execute_copy cmdPlain ⟨diaryJpg, []⟩ ⟨0, 0, 0⟩ "x.jpg".data
        ⟨dateA, "12-34-56 ab.jpg"⟩ 0 1 = Except.error e) ∧
     (∃ e, execute cmdPlain [Step.copy "x.jpg".data
        ⟨dateA, "12-34-56 ab.jpg"⟩] ⟨diaryJpg, []⟩ = Except.error e)) :=
  ⟨by decide,
   c7_put_never_overwrites cmdPlain ⟨diaryJpg, []⟩ "x.jpg".data
     ⟨dateA, "12-34-56 ab.jpg"⟩ ⟨0, 0, 0⟩ 0 1 rfl (by decide)⟩

/-- Claim C9: filtering with `on = D` (and no range bounds) keeps
exactly the files whose resolved date equals `D`; filtering with
`from = A, to = B` (and no `on`) keeps exactly those whose resolved date
lies in the inclusive range `[A, B]`; and the CLI rejects a command
setting `on` together with `from` or `to`. -/
theorem c9_date_filters (files : List SourceFile) (d0 lo hi : Date)
    (rm dr : Bool) (x : SourceFile) :
    (x ∈ scanFilter ⟨some d0, none, none, rm, dr⟩ files ↔
      x ∈ files ∧ x.ty.date = d0) ∧
    (x ∈ scanFilter ⟨none, some lo, some hi, rm, dr⟩ files ↔
      x ∈ files ∧ Date.leb lo x.ty.date = true ∧
        Date.leb x.ty.date hi = true) ∧
    (∀ c : AddCmd, c.onDate.isSome = true →
      (c.fromDate.isSome = true ∨ c.toDate.isSome = true) →
      cliAccepts c = false) := by
  refine ⟨?_, ?_, fun c h1 h2 => ?_⟩
  · simp [scanFilter, List.mem_filter]
  · simp [scanFilter, List.mem_filter, and_assoc]
  · cases h2 with
    | inl h2 => simp [cliAccepts, h1, h2]
    | inr h2 => simp [cliAccepts, h1, h2]

/-- Claim C9, witness: the combination `on` plus `from` is rejected by
the CLI constraints. -/
theorem c9_date_filters_witness :
    cliAccepts ⟨some dateA, some dateB, none, false, false⟩ = false :=
  (c9_date_filters [] dateA dateA dateA false false videoAB).2.2
    ⟨some dateA, some dateB, none, false, false⟩ (by decide)
    (Or.inl (by decide))

/-- Under dry-run every single step succeeds, leaves the world state exactly as it was, and its statistics and progress line do not depend on the state. -/
lemma executeStep_dry (cmd : AddCmd) (h : cmd.dry_run = true)
    (stats : Stats) (step : Step) (idx n : Nat) :
    ∃ stats2 desc, ∀ st, executeStep cmd st stats step idx n =
      Except.ok (st, stats2, desc) := by
  cases step with
  | copy src dst =>
    exact ⟨⟨stats.skipped, stats.copied + 1, stats.removed⟩,
      ⟨"Would copy", String.mk src ++ " to " ++ dst.render ++ renderIdx idx n⟩,
      fun st => by simp [executeStep, execute_copy, h]⟩
  | skip src reason =>
    exact ⟨⟨stats.skipped + 1, stats.copied, stats.removed⟩,
      ⟨"Would skip", String.mk src ++ " (" ++ reason ++ ")" ++ renderIdx idx n⟩,
      fun st => by simp [executeStep, execute_skip, h]⟩
  | remove src reason =>
    exact ⟨⟨stats.skipped, stats.copied, stats.removed + 1⟩,
      ⟨"Would remove", String.mk src ++ " (" ++ reason ++ ")" ++
        renderIdx idx n⟩,
      fun st => by simp [executeStep, execute_remove, h]⟩
  | convert src dst =>
    exact ⟨stats,
      ⟨"Would convert", String.mk src ++ " to " ++ String.mk dst ++
        renderIdx idx n⟩,
      fun st => by simp [executeStep, execute_convert, h]⟩

/-- Under dry-run the whole executor loop succeeds, returns the initial state unchanged, and its statistics and progress lines do not depend on the state. -/
lemma executeSteps_dry (cmd : AddCmd) (h : cmd.dry_run = true) (n : Nat)
    (steps : List Step) :
    ∀ (idx : Nat) (stats : Stats),
      ∃ stats2 descs, ∀ st, executeSteps cmd n steps idx st stats =
        Except.ok (st, stats2, descs) := by
  induction steps with
  | nil => exact fun idx stats => ⟨stats, [], fun st => rfl⟩
  | cons step rest ih =>
    intro idx stats
    obtain ⟨stats2, desc, hstep⟩ := executeStep_dry cmd h stats step idx n
    obtain ⟨stats3, descs, hrest⟩ := ih (idx + 1) stats2
    exact ⟨stats3, desc :: descs, fun st => by
      simp only [executeSteps, hstep st, hrest st]⟩

/-- A single step that succeeds outside dry-run produces, under dry-run, the same statistics and a progress line differing only in the verb. -/
lemma executeStep_wet_dry (c1 c2 : AddCmd) (h1 : c1.dry_run = false)
    (h2 : c2.dry_run = true) (st st2 : ExecState) (stats stats2 : Stats)
    (desc : Desc) (step : Step) (idx n : Nat)
    (hok : executeStep c1 st stats step idx n =
      Except.ok (st2, stats2, desc)) :
    ∃ desc2, (∀ st', executeStep c2 st' stats step idx n =
      Except.ok (st', stats2, desc2)) ∧ desc2.body = desc.body := by
  cases step with
  | copy src dst =>
    simp only [executeStep, execute_copy, h1, Bool.false_eq_true,
      if_false] at hok
    cases hadd : DiaryRepository.add st.diary src dst with
    | error e => rw [hadd] at hok; simp at hok
    | ok d2 =>
      rw [hadd] at hok
      simp only [Except.ok.injEq, Prod.mk.injEq] at hok
      obtain ⟨hst, hstats, hdesc⟩ := hok
      subst hstats; subst hdesc
      exact ⟨⟨"Would copy", String.mk src ++ " to " ++ dst.render ++
          renderIdx idx n⟩,
        fun st' => by simp [executeStep, execute_copy, h2], rfl⟩
  | skip src reason =>
    simp only [executeStep, execute_skip, h1, Except.ok.injEq,
      Prod.mk.injEq] at hok
    obtain ⟨hst, hstats, hdesc⟩ := hok
    subst hstats; subst hdesc
    exact ⟨⟨"Would skip", String.mk src ++ " (" ++ reason ++ ")" ++
        renderIdx idx n⟩,
      fun st' => by simp [executeStep, execute_skip, h2], rfl⟩
  | remove src reason =>
    simp only [executeStep, execute_remove, h1, Bool.false_eq_true,
      if_false] at hok
    cases hc : st.fsFiles.contains src with
    | false => rw [hc] at hok; simp at hok
    | true =>
      rw [hc] at hok
      simp only [if_true, Except.ok.injEq, Prod.mk.injEq] at hok
      obtain ⟨hst, hstats, hdesc⟩ := hok
      subst hstats; subst hdesc
      exact ⟨⟨"Would remove", String.mk src ++ " (" ++ reason ++ ")" ++
          renderIdx idx n⟩,
        fun st' => by simp [executeStep, execute_remove, h2], rfl⟩
  | convert src dst =>
    simp only [executeStep, execute_convert, h1, Bool.false_eq_true,
      if_false] at hok
    cases hc : st.fsFiles.contains src with
    | false => rw [hc] at hok; simp at hok
    | true =>
      rw [hc] at hok
      simp only [if_true, Except.ok.injEq, Prod.mk.injEq] at hok
      obtain ⟨hst, hstats, hdesc⟩ := hok
      subst hstats; subst hdesc
      exact ⟨⟨"Would convert", String.mk src ++ " to " ++ String.mk dst ++
          renderIdx idx n⟩,
        fun st' => by simp [executeStep, execute_convert, h2], rfl⟩

/-- An executor run that succeeds outside dry-run is matched step for step by the dry-run: same statistics, progress lines equal apart from the verbs, initial state returned unchanged. -/
lemma executeSteps_wet_dry (c1 c2 : AddCmd) (h1 : c1.dry_run = false)
    (h2 : c2.dry_run = true) (n : Nat) (steps : List Step) :
    ∀ (idx : Nat) (st : ExecState) (stats : Stats) (st3 : ExecState)
      (stats3 : Stats) (descs : List Desc),
      executeSteps c1 n steps idx st stats = Except.ok (st3, stats3, descs) →
      ∃ descs2, executeSteps c2 n steps idx st stats =
          Except.ok (st, stats3, descs2) ∧
        descs2.map Desc.body = descs.map Desc.body := by
  induction steps with
  | nil =>
    intro idx st stats st3 stats3 descs hok
    simp only [executeSteps, Except.ok.injEq, Prod.mk.injEq] at hok
    obtain ⟨hst, hstats, hdescs⟩ := hok
    subst hstats; subst hdescs
    exact ⟨[], rfl, rfl⟩
  | cons step rest ih =>
    intro idx st stats st3 stats3 descs hok
    simp only [executeSteps] at hok
    split at hok
    · exact absurd hok (by simp)
    next st2 stats2 desc hstep =>
      split at hok
      · exact absurd hok (by simp)
      next st3b stats3b descsb hrest =>
        simp only [Except.ok.injEq, Prod.mk.injEq] at hok
        obtain ⟨hst3, hstats3, hdescs⟩ := hok
        subst hstats3; subst hdescs
        obtain ⟨desc2, hstepD, hbody⟩ :=
          executeStep_wet_dry c1 c2 h1 h2 st st2 stats stats2 desc step idx n
            hstep
        obtain ⟨descs2, hrestD, hbodies⟩ :=
          ih (idx + 1) st2 stats2 st3b stats3b descsb hrest
        obtain ⟨statsP, descsP, hall⟩ :=
          executeSteps_dry c2 h2 n rest (idx + 1) stats2
        have hid : statsP = stats3b ∧ descsP = descs2 := by
          have hx := hall st2
          rw [hrestD] at hx
          simp only [Except.ok.injEq, Prod.mk.injEq] at hx
          exact ⟨hx.2.1.symm, hx.2.2.symm⟩
        refine ⟨desc2 :: descs2, ?_, ?_⟩
        · have hy := hall st
          rw [hid.1, hid.2] at hy
          simp only [executeSteps, hstepD st, hy]
        · simp only [List.map_cons, hbody, hbodies]

/-- Claim C8: executing any plan under dry-run mutates neither the diary nor the source tree (the final state is the initial one) and always succeeds; and whenever the non-dry run succeeds, the dry run reports the same accumulated statistics and the same sequence of progress-line bodies, differing only in verb tense. -/
theorem c8_dry_run_frame (c1 c2 : AddCmd) (plan : List Step) (st : ExecState)
    (h1 : c1.dry_run = false) (h2 : c2.dry_run = true) :
    (∃ stats descs, execute c2 plan st = Except.ok (st, stats, descs)) ∧
    (∀ st2 stats descs, execute c2 plan st = Except.ok (st2, stats, descs) →
      st2 = st) ∧
    (∀ st3 stats3 descs3,
      execute c1 plan st = Except.ok (st3, stats3, descs3) →
      ∃ descs2, execute c2 plan st = Except.ok (st, stats3, descs2) ∧
        descs2.map Desc.body = descs3.map Desc.body) := by
  obtain ⟨stats2, descs, hall⟩ :=
    executeSteps_dry c2 h2 plan.length plan 0 ⟨0, 0, 0⟩
  refine ⟨⟨stats2, descs, hall st⟩, fun st2 stats descsb hok => ?_,
    fun st3 stats3 descs3 hok => ?_⟩
  · rw [execute] at hok
    rw [hall st] at hok
    simp only [Except.ok.injEq, Prod.mk.injEq] at hok
    exact hok.1.symm
  · exact executeSteps_wet_dry c1 c2 h1 h2 plan.length plan 0 st ⟨0, 0, 0⟩
      st3 stats3 descs3 hok

/-- Command options with only dry-run set. -/
def cmdDry : AddCmd := ⟨none, none, none, false, true⟩

/-- Claim C8, witness: the dry run of a two-step plan (a skip plus an
addition into an empty diary) matches the statistics and line bodies of
the successful non-dry run, from the unchanged initial state. -/
theorem c8_dry_run_frame_witness :
    ∃ descs2, execute cmdDry
        [Step.skip "a".data "x", Step.copy "b".data ⟨dateA, "n.jpg"⟩]
        ⟨[], []⟩ =
        Except.ok (⟨[], []⟩, ⟨1, 1, 0⟩, descs2) ∧
      descs2.map Desc.body =
        [Desc.mk "Skipping" "a (x) | 1/2",
         Desc.mk "Copying" "b to diary:2018/01/14/n.jpg | 2/2"].map
          Desc.body :=
  (c8_dry_run_frame cmdPlain cmdDry
      [Step.skip "a".data "x", Step.copy "b".data ⟨dateA, "n.jpg"⟩]
      ⟨[], []⟩ rfl rfl).2.2
    ⟨[⟨dateA, "n.jpg"⟩], []⟩ ⟨1, 1, 0⟩
    [Desc.mk "Skipping" "a (x) | 1/2",
     Desc.mk "Copying" "b to diary:2018/01/14/n.jpg | 2/2"] rfl

instance : IsTotal SourceFile fun a b => a.path ≤ b.path :=
  ⟨fun a b => le_total a.path b.path⟩

instance : IsTrans SourceFile fun a b => a.path ≤ b.path :=
  ⟨fun _ _ _ hab hbc => le_trans hab hbc⟩

/-- The scan's sort orders the files by path. -/
lemma sortByPath_sorted (l : List SourceFile) :
    List.Sorted (fun a b : SourceFile => a.path ≤ b.path) (sortByPath l) :=
  List.sorted_insertionSort _ l

/-- The scan's sort permutes the files. -/
lemma sortByPath_perm (l : List SourceFile) : (sortByPath l).Perm l :=
  List.perm_insertionSort _ l

/-- Two path-sorted lists that are permutations of each other and whose paths are pairwise distinct are equal. -/
lemma sorted_perm_nodup_path_eq (l1 : List SourceFile) :
    ∀ l2, l1.Perm l2 →
      List.Sorted (fun a b : SourceFile => a.path ≤ b.path) l1 →
      List.Sorted (fun a b : SourceFile => a.path ≤ b.path) l2 →
      (l1.map SourceFile.path).Nodup → l1 = l2 := by
  induction l1 with
  | nil =>
    intro l2 hp _ _ _
    exact hp.symm.eq_nil.symm
  | cons a t1 ih =>
    intro l2 hp hs1 hs2 hnd
    cases l2 with
    | nil => exact absurd hp.eq_nil (by simp)
    | cons b t2 =>
      have hcon : (∀ x ∈ t1, ¬ x.path = a.path) ∧
          (t1.map SourceFile.path).Nodup := by simpa using hnd
      have hab : a = b := by
        by_contra hne
        have hbmem : b ∈ a :: t1 := hp.mem_iff.mpr (List.mem_cons_self b t2)
        have hamem : a ∈ b :: t2 := hp.mem_iff.mp (List.mem_cons_self a t1)
        have hb1 : b ∈ t1 := by
          rcases List.mem_cons.mp hbmem with hx | hx
          · exact absurd hx.symm hne
          · exact hx
        have ha2 : a ∈ t2 := by
          rcases List.mem_cons.mp hamem with hx | hx
          · exact absurd hx hne
          · exact hx
        have hle1 : a.path ≤ b.path := (List.sorted_cons.mp hs1).1 b hb1
        have hle2 : b.path ≤ a.path := (List.sorted_cons.mp hs2).1 a ha2
        have hpath : a.path = b.path := le_antisymm hle1 hle2
        exact hcon.1 b hb1 hpath.symm
      subst hab
      have hp2 : t1.Perm t2 := hp.cons_inv
      have ht := ih t2 hp2 (List.sorted_cons.mp hs1).2
        (List.sorted_cons.mp hs2).2 hcon.2
      rw [ht]

/-- Claim C10: the scan sorts the recognized files by path, so two enumerations of the same source tree yielding the same file set (paths being distinct in a tree) produce the same scan output and the identical plan — plan contents and step order are deterministic in the file set and the diary snapshot. -/
theorem c10_plan_deterministic (cmd : AddCmd) (diary : Diary)
    (l1 l2 : List SourceFile) (hperm : l1.Perm l2)
    (hnd : (l1.map SourceFile.path).Nodup) :
    scan cmd l1 = scan cmd l2 ∧
    process cmd diary (scan cmd l1) = process cmd diary (scan cmd l2) := by
  have hf : (scanFilter cmd l1).Perm (scanFilter cmd l2) := hperm.filter _
  have hsub : (scanFilter cmd l1).Sublist l1 := List.filter_sublist l1
  have hnd1 : ((scanFilter cmd l1).map SourceFile.path).Nodup :=
    List.Nodup.sublist (hsub.map SourceFile.path) hnd
  have hsp : (sortByPath (scanFilter cmd l1)).Perm
      (sortByPath (scanFilter cmd l2)) :=
    (sortByPath_perm _).trans (hf.trans (sortByPath_perm _).symm)
  have hnds : ((sortByPath (scanFilter cmd l1)).map SourceFile.path).Nodup :=
    (((sortByPath_perm (scanFilter cmd l1)).map SourceFile.path).nodup_iff).mpr
      hnd1
  have heq : sortByPath (scanFilter cmd l1) = sortByPath (scanFilter cmd l2) :=
    sorted_perm_nodup_path_eq _ _ hsp (sortByPath_sorted _)
      (sortByPath_sorted _) hnds
  exact ⟨heq, by rw [show scan cmd l1 = scan cmd l2 from heq]⟩

/-- Claim C10, witness: the two orderings of the batch holding
`videoAB` and `photoOtherDay` produce the same scan output and the same
plan against an empty diary. -/
theorem c10_plan_deterministic_witness :
    scan cmdPlain [videoAB, photoOtherDay] =
      scan cmdPlain [photoOtherDay, videoAB] ∧
    process cmdPlain [] (scan cmdPlain [videoAB, photoOtherDay]) =
      process cmdPlain [] (scan cmdPlain [photoOtherDay, videoAB]) :=
  c10_plan_deterministic cmdPlain [] [videoAB, photoOtherDay]
    [photoOtherDay, videoAB] (List.Perm.swap photoOtherDay videoAB [])
    (by decide)
